import Mathlib

/-!
Shallow embedding of the TYBwiki server core: the drizzle schema
(shared schema file), the storage layer (server/storage.ts) and the
express route handlers (server routes file).

Rows are Lean structures; the persisted store is a list of rows; each
storage method is a pure function on that list (stateful methods return
the new list); each route handler threads the store explicitly.  Time is
an integer parameter standing for the millisecond clock, and the bytes
produced by the random source are a parameter of the handler that uses
them.
-/

/-- A row of the wiki_entries table (shared schema).  Timestamps are
dropped: no claim concerns createdAt/updatedAt.  The verification column
has DB default "unknown" and is never written null by this code base, so
it is embedded as a plain String. -/
structure WikiEntry where
  id : String
  userId : String
  title : String
  description : String
  imageUrl : Option String
  status : String
  verification : String
  isSpecial : Bool
  specialAccessToken : Option String
  deriving Repr, DecidableEq

/-- A row of the users table; only the fields the claims touch. -/
structure User where
  id : String
  isAdmin : Bool
  role : String
  isBanned : Bool
  bannedUntil : Option Int
  banReason : Option String
  deriving Repr, DecidableEq

/-- A row of the likes table. -/
structure Like where
  id : String
  entryId : String
  userId : String
  deriving Repr, DecidableEq

/-- The value accepted by insertWikiEntrySchema: createInsertSchema on
wiki_entries with only id/createdAt/updatedAt omitted.  Columns with DB
defaults become optional fields; in particular the status column is NOT
omitted, so a caller-supplied status value is part of the parsed data. -/
structure InsertWikiEntry where
  userId : String
  title : String
  description : String
  imageUrl : Option String
  status : Option String
  verification : Option String
  isSpecial : Option Bool
  specialAccessToken : Option String
  deriving Repr, DecidableEq

/-- The value accepted by updateWikiEntrySchema: createInsertSchema on
wiki_entries omitting id/userId/status/createdAt/updatedAt, then
.partial().strict().  Note verification, isSpecial and
specialAccessToken all remain updatable fields.  A field that is `none`
is absent from the payload; for specialAccessToken `some v` sets the
column to v (which may itself be null). -/
structure UpdateWikiEntry where
  title : Option String
  description : Option String
  imageUrl : Option String
  verification : Option String
  isSpecial : Option Bool
  specialAccessToken : Option (Option String)
  deriving Repr, DecidableEq

/-- The drizzle update .set spread: present payload fields overwrite the
row, absent ones leave it alone. -/
def applyUpdate (e : WikiEntry) (p : UpdateWikiEntry) : WikiEntry :=
  { e with
    title := p.title.getD e.title
    description := p.description.getD e.description
    imageUrl := match p.imageUrl with
      | some v => some v
      | none => e.imageUrl
    verification := p.verification.getD e.verification
    isSpecial := p.isSpecial.getD e.isSpecial
    specialAccessToken := match p.specialAccessToken with
      | some v => v
      | none => e.specialAccessToken }

/-- storage.getEntry: select by primary key. -/
def getEntry (entries : List WikiEntry) (id : String) : Option WikiEntry :=
  entries.find? (fun e => e.id == id)

/-- storage.createEntry: insert .values(entryData) .returning(); DB
defaults fill the columns the payload leaves out. -/
def createEntry (entries : List WikiEntry) (d : InsertWikiEntry) (newId : String) :
    WikiEntry × List WikiEntry :=
  let e : WikiEntry :=
    { id := newId
      userId := d.userId
      title := d.title
      description := d.description
      imageUrl := d.imageUrl
      status := d.status.getD "pending"
      verification := d.verification.getD "unknown"
      isSpecial := d.isSpecial.getD false
      specialAccessToken := d.specialAccessToken }
  (e, entries ++ [e])

/-- storage.updateEntry: update .set over the matching row, returning
the updated row (none when the id does not exist). -/
def updateEntry (entries : List WikiEntry) (id : String) (p : UpdateWikiEntry) :
    Option WikiEntry × List WikiEntry :=
  let entries' := entries.map (fun e => if e.id == id then applyUpdate e p else e)
  (entries'.find? (fun e => e.id == id), entries')

/-- storage.moderateEntry: update .set of the status column alone. -/
def moderateEntry (entries : List WikiEntry) (id status : String) :
    Option WikiEntry × List WikiEntry :=
  let entries' := entries.map (fun e => if e.id == id then { e with status := status } else e)
  (entries'.find? (fun e => e.id == id), entries')

/-- storage.deleteEntry / deleteEntryAdmin: delete by primary key. -/
def deleteEntry (entries : List WikiEntry) (id : String) : List WikiEntry :=
  entries.filter (fun e => !(e.id == id))

/-- storage.getApprovedEntries: the public listing, filtered on
status = "approved" only (the inner join with users and the ordering do
not change which entries appear). -/
def getApprovedEntries (entries : List WikiEntry) : List WikiEntry :=
  entries.filter (fun e => e.status == "approved")

/-- The token test inside storage.getSpecialPost: the JS guard
`!token || token !== entry.specialAccessToken` passes exactly when a
nonempty token was supplied and strictly equals the stored column. -/
def tokenMatches (token : Option String) (stored : Option String) : Bool :=
  match token with
  | none => false
  | some t => !(t == "") && stored == some t

/-- storage.getSpecialPost: fetch the row; for a special entry deny
unless the token matches; a non-special entry is returned as is. -/
def getSpecialPost (entries : List WikiEntry) (entryId : String) (token : Option String) :
    Option WikiEntry :=
  match getEntry entries entryId with
  | none => none
  | some e => if e.isSpecial && !(tokenMatches token e.specialAccessToken) then none else some e

/-- storage.getUser: select by primary key. -/
def getUser (users : List User) (id : String) : Option User :=
  users.find? (fun u => u.id == id)

/-- The .set of storage.unbanUser. -/
def clearBan (u : User) : User :=
  { u with isBanned := false, banReason := none, bannedUntil := none }

/-- storage.unbanUser: clear the three ban columns of the row. -/
def unbanUser (users : List User) (userId : String) : Option User × List User :=
  let users' := users.map (fun u => if u.id == userId then clearBan u else u)
  (users'.find? (fun u => u.id == userId), users')

/-- storage.checkUserBanned: not banned when absent or isBanned false;
when a bannedUntil timestamp exists and `now` is strictly past it, the
ban is auto-cleared through unbanUser and false returned; otherwise the
stored isBanned (true here) is returned and nothing is written. -/
def checkUserBanned (users : List User) (now : Int) (userId : String) : Bool × List User :=
  match getUser users userId with
  | none => (false, users)
  | some u =>
    if !u.isBanned then (false, users)
    else
      match u.bannedUntil with
      | some t => if now > t then (false, (unbanUser users userId).2) else (u.isBanned, users)
      | none => (u.isBanned, users)

/-- storage.userLikesEntry: does a row with this (entryId, userId) pair
exist. -/
def userLikesEntry (likes : List Like) (entryId userId : String) : Bool :=
  (likes.find? (fun l => l.entryId == entryId && l.userId == userId)).isSome

/-- storage.createLike: plain insert .returning(). -/
def createLike (likes : List Like) (l : Like) : Like × List Like :=
  (l, likes ++ [l])

/-- storage.removeLike: delete where entryId and userId both match. -/
def removeLike (likes : List Like) (entryId userId : String) : List Like :=
  likes.filter (fun l => !(l.entryId == entryId && l.userId == userId))

/-- Results a route handler can produce (HTTP statuses abstracted). -/
inductive EntryResult where
  | created (e : WikiEntry)
  | ok (e : WikiEntry)
  | deleted
  | notFound
  | forbidden
  | serverError
  deriving Repr, DecidableEq

/-- The client body of POST /api/entries before the route merges in the
authenticated userId (then parsed by insertWikiEntrySchema). -/
structure InsertBody where
  title : String
  description : String
  imageUrl : Option String
  status : Option String
  verification : Option String
  isSpecial : Option Bool
  specialAccessToken : Option String
  deriving Repr, DecidableEq

/-- POST /api/entries: parse the body together with the authenticated
userId through insertWikiEntrySchema, then storage.createEntry. -/
def createEntryRoute (entries : List WikiEntry) (userId : String) (body : InsertBody)
    (newId : String) : EntryResult × List WikiEntry :=
  let validatedData : InsertWikiEntry :=
    { userId := userId
      title := body.title
      description := body.description
      imageUrl := body.imageUrl
      status := body.status
      verification := body.verification
      isSpecial := body.isSpecial
      specialAccessToken := body.specialAccessToken }
  let r := createEntry entries validatedData newId
  (EntryResult.created r.1, r.2)

/-- The raw body of PATCH /api/entries/:id; the route destructures the
status key away before validation, every other field of
updateWikiEntrySchema passes through. -/
structure UpdateBody where
  status : Option String
  title : Option String
  description : Option String
  imageUrl : Option String
  verification : Option String
  isSpecial : Option Bool
  specialAccessToken : Option (Option String)
  deriving Repr, DecidableEq

/-- The `const \x7b status, ...bodyWithoutStatus \x7d = req.body` strip
followed by updateWikiEntrySchema.parse. -/
def stripStatus (body : UpdateBody) : UpdateWikiEntry :=
  { title := body.title
    description := body.description
    imageUrl := body.imageUrl
    verification := body.verification
    isSpecial := body.isSpecial
    specialAccessToken := body.specialAccessToken }

/-- PATCH /api/entries/:id: 404 when the entry is absent, 403 when the
requester is not the owner, otherwise apply the status-stripped update
and force the status column back to "pending" via storage.moderateEntry;
the response carries the row as it was right after the update. -/
def updateEntryRoute (entries : List WikiEntry) (requesterId id : String) (body : UpdateBody) :
    EntryResult × List WikiEntry :=
  match getEntry entries id with
  | none => (EntryResult.notFound, entries)
  | some existingEntry =>
    if !(existingEntry.userId == requesterId) then (EntryResult.forbidden, entries)
    else
      match (updateEntry entries id (stripStatus body)).1 with
      | some entry =>
        (EntryResult.ok entry,
          (moderateEntry (updateEntry entries id (stripStatus body)).2 id "pending").2)
      | none => (EntryResult.notFound, (updateEntry entries id (stripStatus body)).2)

/-- DELETE /api/entries/:id: 404 when absent, 403 when the requester is
not the owner, otherwise storage.deleteEntry. -/
def deleteEntryRoute (entries : List WikiEntry) (requesterId id : String) :
    EntryResult × List WikiEntry :=
  match getEntry entries id with
  | none => (EntryResult.notFound, entries)
  | some existingEntry =>
    if !(existingEntry.userId == requesterId) then (EntryResult.forbidden, entries)
    else (EntryResult.deleted, deleteEntry entries id)

/-- GET /api/entries/:id (authenticated): a bare storage.getEntry with a
404 on absence — no ownership, status or special check. -/
def getEntryRoute (entries : List WikiEntry) (id : String) : EntryResult :=
  match getEntry entries id with
  | none => EntryResult.notFound
  | some e => EntryResult.ok e

/-- Lower-case hex digit of a nibble, as produced by Buffer toString
with the hex encoding. -/
def hexDigit (n : Nat) : Char :=
  if n < 10 then Char.ofNat (48 + n) else Char.ofNat (87 + n)

/-- Hex encoding of a byte list, two digits per byte. -/
def hexEncodeAux : List Nat → List Char
  | [] => []
  | b :: bs => hexDigit (b / 16) :: hexDigit (b % 16) :: hexEncodeAux bs

/-- randomBytes(32).toString with hex encoding, with the 32 random
bytes passed in as a parameter. -/
def hexEncode (bytes : List Nat) : String :=
  String.mk (hexEncodeAux bytes)

/-- The update object built by PATCH /api/entries/:id/special: when the
body turns isSpecial on, a token is generated from 32 random bytes and
the field set; when turning it off the token field is left undefined,
which drizzle skips. -/
def specialPatch (isSpecial : Bool) (randomBytes32 : List Nat) : UpdateWikiEntry :=
  { title := none
    description := none
    imageUrl := none
    verification := none
    isSpecial := some isSpecial
    specialAccessToken :=
      if isSpecial then some (some (hexEncode randomBytes32)) else none }

/-- PATCH /api/entries/:id/special: 404 when absent, 403 when the
requester is not the owner; otherwise the isSpecial flag (and, when
turning it on, the generated token) is stored via storage.updateEntry. -/
def setSpecialRoute (entries : List WikiEntry) (requesterId id : String) (isSpecial : Bool)
    (randomBytes32 : List Nat) : EntryResult × List WikiEntry :=
  match getEntry entries id with
  | none => (EntryResult.notFound, entries)
  | some existingEntry =>
    if !(existingEntry.userId == requesterId) then (EntryResult.forbidden, entries)
    else
      match (updateEntry entries id (specialPatch isSpecial randomBytes32)).1 with
      | some e =>
        (EntryResult.ok e, (updateEntry entries id (specialPatch isSpecial randomBytes32)).2)
      | none =>
        (EntryResult.serverError,
          (updateEntry entries id (specialPatch isSpecial randomBytes32)).2)

/-- Results of POST /api/likes. -/
inductive LikeResult where
  | created (l : Like)
  | alreadyLiked
  deriving Repr, DecidableEq

/-- POST /api/likes: reject with 400 when storage.userLikesEntry already
holds, otherwise insert the new row. -/
def createLikeRoute (likes : List Like) (userId entryId : String) (newId : String) :
    LikeResult × List Like :=
  if userLikesEntry likes entryId userId then (LikeResult.alreadyLiked, likes)
  else
    (LikeResult.created (createLike likes { id := newId, entryId := entryId, userId := userId }).1,
      (createLike likes { id := newId, entryId := entryId, userId := userId }).2)

/-- Number of stored Like rows carrying a given (entryId, userId) pair. -/
def likeCount (likes : List Like) (entryId userId : String) : Nat :=
  likes.countP (fun l => l.entryId == entryId && l.userId == userId)

/-- The uniqueness invariant of the likes table: at most one row per
(entryId, userId) pair. -/
def likesUnique (likes : List Like) : Prop :=
  ∀ entryId userId, likeCount likes entryId userId ≤ 1

/-! ### Helper lemmas -/

/-- Updating the rows selected by a predicate with a function that does
not change the predicate commutes with find?. -/
theorem find?_map_pres {α : Type} (q : α → Bool) (f : α → α)
    (hf : ∀ a, q (f a) = q a) (l : List α) :
    (l.map (fun a => if q a then f a else a)).find? q = (l.find? q).map f := by
  induction l with
  | nil => rfl
  | cons a l ih =>
    simp only [List.map_cons]
    cases h : q a with
    | true =>
      rw [if_pos rfl]
      rw [List.find?_cons_of_pos _ (by rw [hf]; exact h), List.find?_cons_of_pos _ h]
      rfl
    | false =>
      rw [if_neg Bool.false_ne_true]
      rw [List.find?_cons_of_neg _ (by rw [h]; exact Bool.false_ne_true),
          List.find?_cons_of_neg _ (by rw [h]; exact Bool.false_ne_true)]
      exact ih

theorem applyUpdate_id (e : WikiEntry) (p : UpdateWikiEntry) : (applyUpdate e p).id = e.id := rfl

/-- The row returned by updateEntry is the fetched row with the patch
applied. -/
theorem updateEntry_find (entries : List WikiEntry) (id : String) (p : UpdateWikiEntry) :
    (updateEntry entries id p).1 = (getEntry entries id).map (fun e => applyUpdate e p) :=
  @find?_map_pres WikiEntry (fun e => e.id == id) (fun e => applyUpdate e p) (fun _ => rfl)
    entries

/-- Fetching from the store updateEntry returns gives its returned row. -/
theorem getEntry_updateEntry_snd (entries : List WikiEntry) (id : String) (p : UpdateWikiEntry) :
    getEntry (updateEntry entries id p).2 id = (updateEntry entries id p).1 := rfl

/-- The row returned by moderateEntry is the fetched row with the status
column overwritten. -/
theorem moderateEntry_find (entries : List WikiEntry) (id status : String) :
    (moderateEntry entries id status).1
      = (getEntry entries id).map (fun e => { e with status := status }) :=
  @find?_map_pres WikiEntry (fun e => e.id == id) (fun e => { e with status := status })
    (fun _ => rfl) entries

/-- Fetching from the store moderateEntry returns gives its returned
row. -/
theorem getEntry_moderateEntry_snd (entries : List WikiEntry) (id status : String) :
    getEntry (moderateEntry entries id status).2 id = (moderateEntry entries id status).1 := rfl

/-- The row returned by unbanUser is the fetched row with the ban
columns cleared. -/
theorem unbanUser_find (users : List User) (userId : String) :
    (unbanUser users userId).1 = (getUser users userId).map clearBan :=
  @find?_map_pres User (fun u => u.id == userId) clearBan (fun _ => rfl) users

/-- Fetching from the store unbanUser returns gives its returned row. -/
theorem getUser_unbanUser_snd (users : List User) (userId : String) :
    getUser (unbanUser users userId).2 userId = (unbanUser users userId).1 := rfl

theorem hexEncodeAux_length (bytes : List Nat) :
    (hexEncodeAux bytes).length = 2 * bytes.length := by
  induction bytes with
  | nil => rfl
  | cons b bs ih => simp only [hexEncodeAux, List.length_cons, ih]; ring

theorem hexEncode_length (bytes : List Nat) : (hexEncode bytes).length = 2 * bytes.length :=
  hexEncodeAux_length bytes

/-- The sixteen characters a hex digit can be. -/
def hexAlphabet : List Char := "0123456789abcdef".toList

theorem hexDigit_mem (n : Nat) (h : n < 16) : hexDigit n ∈ hexAlphabet := by
  interval_cases n <;> decide

theorem hexEncodeAux_mem (bytes : List Nat) (hb : ∀ b ∈ bytes, b < 256) :
    ∀ c ∈ hexEncodeAux bytes, c ∈ hexAlphabet := by
  induction bytes with
  | nil => intro c hc; cases hc
  | cons b bs ih =>
    intro c hc
    have hblt : b < 256 := hb b (by simp)
    simp only [hexEncodeAux, List.mem_cons] at hc
    rcases hc with rfl | rfl | hc
    · exact hexDigit_mem _ (Nat.div_lt_of_lt_mul (by omega))
    · exact hexDigit_mem _ (Nat.mod_lt _ (by omega))
    · exact ih (fun x hx => hb x (List.mem_cons_of_mem _ hx)) c hc

/-! ### Shared concrete fixtures -/

/-- A plain pending entry owned by alice. -/
def entryAliceE1 : WikiEntry :=
  { id := "e1", userId := "alice", title := "t", description := "d", imageUrl := none,
    status := "pending", verification := "unknown", isSpecial := false,
    specialAccessToken := none }

/-- An update body supplying no field at all. -/
def noUpdateBody : UpdateBody :=
  { status := none, title := none, description := none, imageUrl := none,
    verification := none, isSpecial := none, specialAccessToken := none }

/-! ### C1 -/

/-- C1: the spec says any status supplied in the creation payload is
stripped or ignored and a freshly created entry always has status
"pending".  In the code insertWikiEntrySchema does not omit the status
column and POST /api/entries passes the parsed body straight to
storage.createEntry, so a payload carrying status "approved" creates an
entry whose status is "approved", not "pending". -/
theorem C1_create_status_not_stripped :
    ∃ e, (createEntryRoute [] "alice"
        { title := "t", description := "d", imageUrl := none, status := some "approved",
          verification := none, isSpecial := none, specialAccessToken := none } "new1").1
          = EntryResult.created e
      ∧ e.status = "approved" ∧ ¬ e.status = "pending" :=
  ⟨_, rfl, rfl, by decide⟩

/-! ### C2 -/

/-- An approved entry that is also special, with its stored token. -/
def approvedSpecialEntry : WikiEntry :=
  { id := "s1", userId := "owner", title := "t", description := "d", imageUrl := none,
    status := "approved", verification := "unknown", isSpecial := true,
    specialAccessToken := some "secret-token" }

/-- C2 counterexample: the claim says a requester who is not the owner,
has no moderation capability and supplies no token can never obtain an
entry with isSpecial = true.  But storage.getApprovedEntries — the
public, unauthenticated listing — filters on status alone, so an
approved special entry is returned by it, stored token included. -/
theorem C2_public_listing_returns_special :
    getApprovedEntries [approvedSpecialEntry] = [approvedSpecialEntry]
      ∧ approvedSpecialEntry.isSpecial = true
      ∧ approvedSpecialEntry.specialAccessToken = some "secret-token" :=
  ⟨by decide, rfl, rfl⟩

/-- C2 amended: the guards the code actually enforces: the token-gated
read path getSpecialPost releases an entry with isSpecial = true only
when the supplied token is nonempty and exactly equals the stored
specialAccessToken, and the public listing only contains entries with
status "approved" (it does not additionally exclude special entries,
and the authenticated per-id read applies no filter at all). -/
theorem C2_amended_guards :
    (∀ entries entryId token e, getSpecialPost entries entryId token = some e →
        e.isSpecial = true →
        ∃ t, token = some t ∧ ¬ t = "" ∧ e.specialAccessToken = some t)
    ∧ ∀ entries e, e ∈ getApprovedEntries entries → e.status = "approved" := by
  constructor
  · intro entries entryId token e hpost hspec
    unfold getSpecialPost at hpost
    cases hget : getEntry entries entryId with
    | none => rw [hget] at hpost; exact absurd hpost (by simp)
    | some e0 =>
      simp only [hget] at hpost
      by_cases hcond : (e0.isSpecial && !(tokenMatches token e0.specialAccessToken)) = true
      · rw [if_pos hcond] at hpost; cases hpost
      · rw [if_neg hcond] at hpost
        cases hpost
        rw [hspec] at hcond
        simp only [Bool.true_and, Bool.not_eq_true', Bool.not_eq_false] at hcond
        unfold tokenMatches at hcond
        cases token with
        | none => cases hcond
        | some t =>
          simp only [Bool.and_eq_true, Bool.not_eq_true', beq_iff_eq] at hcond
          exact ⟨t, rfl, by simpa using hcond.1, hcond.2⟩
  · intro entries e hmem
    unfold getApprovedEntries at hmem
    rw [List.mem_filter] at hmem
    simpa using hmem.2

/-- C2 amended, applied: the token gate of getSpecialPost at a concrete
special entry and matching token. -/
theorem C2_amended_guards_witness :
    ∃ t, (some "secret-token" : Option String) = some t ∧ ¬ t = ""
      ∧ approvedSpecialEntry.specialAccessToken = some t :=
  C2_amended_guards.1 [approvedSpecialEntry] "s1" (some "secret-token") approvedSpecialEntry
    (by decide) rfl

/-! ### C3 -/

/-- A pending, non-special entry. -/
def pendingPlainEntry : WikiEntry :=
  { id := "p1", userId := "bob", title := "t", description := "d", imageUrl := none,
    status := "pending", verification := "unknown", isSpecial := false,
    specialAccessToken := none }

/-- C3 counterexample: the claim says the public per-entry read path
serves a non-special entry to an anonymous caller only when its status
is "approved" and denies it when pending.  storage.getSpecialPost (the
handler of GET /api/special/:entryId) only guards special entries: a
pending non-special entry is returned to an anonymous caller with no
token. -/
theorem C3_pending_entry_served_anonymously :
    getSpecialPost [pendingPlainEntry] "p1" none = some pendingPlainEntry
      ∧ pendingPlainEntry.status = "pending" ∧ pendingPlainEntry.isSpecial = false :=
  ⟨by decide, rfl, rfl⟩

/-- C3 amended: for an entry with isSpecial = false the public per-entry
read path returns the entry whatever its status and whatever token (or
none) is supplied — no status check is applied on this path. -/
theorem C3_amended_no_status_check (entries : List WikiEntry) (id : String)
    (token : Option String) (e : WikiEntry) (hget : getEntry entries id = some e)
    (hspec : e.isSpecial = false) :
    getSpecialPost entries id token = some e := by
  simp [getSpecialPost, hget, hspec]

/-- C3 amended, applied: the concrete pending non-special entry is
served. -/
theorem C3_amended_no_status_check_witness :
    getSpecialPost [pendingPlainEntry] "p1" none = some pendingPlainEntry :=
  C3_amended_no_status_check [pendingPlainEntry] "p1" none pendingPlainEntry (by decide) rfl

/-! ### C10 -/

/-- An approved entry with verification "unknown" owned by carol. -/
def unknownVerifEntry : WikiEntry :=
  { id := "v1", userId := "carol", title := "t", description := "d", imageUrl := none,
    status := "approved", verification := "unknown", isSpecial := false,
    specialAccessToken := none }

/-- C10: the spec says verification is changed exclusively by the admin
set-verification operation and an owner edit never modifies
verification or specialAccessToken.  In the code updateWikiEntrySchema
only omits id/userId/status/createdAt/updatedAt, so verification and
specialAccessToken pass .strict() validation, and PATCH /api/entries/:id
writes them: the owner edit below flips verification from "unknown" to
"verified" and plants a chosen specialAccessToken. -/
theorem C10_owner_edit_sets_verification :
    unknownVerifEntry.verification = "unknown"
      ∧ ∃ e', getEntry (updateEntryRoute [unknownVerifEntry] "carol" "v1"
          { status := none, title := none, description := none, imageUrl := none,
            verification := some "verified", isSpecial := none,
            specialAccessToken := some (some "forged") }).2 "v1" = some e'
        ∧ e'.verification = "verified" ∧ e'.specialAccessToken = some "forged" :=
  ⟨rfl,
    { id := "v1", userId := "carol", title := "t", description := "d", imageUrl := none,
      status := "pending", verification := "verified", isSpecial := false,
      specialAccessToken := some "forged" },
    by decide, rfl, rfl⟩

/-! ### C5 -/

/-- C5: whatever the prior status of the entry, a successful owner edit
through PATCH /api/entries/:id leaves the stored entry with status
"pending": the route applies the status-stripped update and then calls
storage.moderateEntry with "pending". -/
theorem C5_owner_edit_forces_pending (entries : List WikiEntry) (requesterId id : String)
    (body : UpdateBody) (e : WikiEntry)
    (hok : (updateEntryRoute entries requesterId id body).1 = EntryResult.ok e) :
    ∃ e', getEntry (updateEntryRoute entries requesterId id body).2 id = some e'
      ∧ e'.status = "pending" := by
  unfold updateEntryRoute at hok ⊢
  cases hget : getEntry entries id with
  | none =>
    rw [hget] at hok
    exact absurd hok (by simp)
  | some ex =>
    simp only [hget] at hok ⊢
    by_cases howner : (ex.userId == requesterId) = true
    · rw [if_neg (by simp [howner])] at hok ⊢
      rw [updateEntry_find, hget] at hok ⊢
      simp only [Option.map_some'] at hok ⊢
      refine ⟨{ applyUpdate ex (stripStatus body) with status := "pending" }, ?_, rfl⟩
      rw [getEntry_moderateEntry_snd, moderateEntry_find, getEntry_updateEntry_snd,
        updateEntry_find, hget]
      rfl
    · rw [if_pos (by simp only [Bool.not_eq_true] at howner; simp [howner])] at hok
      exact absurd hok (by simp)

/-- C5 applied: alice edits her own pending entry with an empty body
and the stored entry ends with status "pending". -/
theorem C5_owner_edit_forces_pending_witness :
    ∃ e', getEntry (updateEntryRoute [entryAliceE1] "alice" "e1" noUpdateBody).2 "e1" = some e'
      ∧ e'.status = "pending" :=
  C5_owner_edit_forces_pending [entryAliceE1] "alice" "e1" noUpdateBody entryAliceE1 (by decide)

/-! ### C6 -/

/-- C6: PATCH /api/entries/:id and DELETE /api/entries/:id return
forbidden for any authenticated requester who is not the entry's owner
and leave the store untouched, and return notFound for a nonexistent
entry id, again leaving the store untouched.  (The code rejects every
non-owner on these routes, admins included, which implies the claim for
non-admin non-owners.) -/
theorem C6_foreign_edit_delete_rejected (entries : List WikiEntry) (requesterId id : String)
    (body : UpdateBody) :
    (∀ e, getEntry entries id = some e → ¬ e.userId = requesterId →
        updateEntryRoute entries requesterId id body = (EntryResult.forbidden, entries)
          ∧ deleteEntryRoute entries requesterId id = (EntryResult.forbidden, entries))
    ∧ (getEntry entries id = none →
        updateEntryRoute entries requesterId id body = (EntryResult.notFound, entries)
          ∧ deleteEntryRoute entries requesterId id = (EntryResult.notFound, entries)) := by
  constructor
  · intro e hget hne
    have hbe : (e.userId == requesterId) = false := by
      simp only [beq_eq_false_iff_ne, ne_eq]
      exact hne
    constructor
    · unfold updateEntryRoute
      simp [hget, hbe]
    · unfold deleteEntryRoute
      simp [hget, hbe]
  · intro hget
    constructor
    · unfold updateEntryRoute
      simp [hget]
    · unfold deleteEntryRoute
      simp [hget]

/-- C6 applied: mallory can neither edit nor delete alice's entry, and
the store is unchanged. -/
theorem C6_foreign_edit_delete_rejected_witness :
    updateEntryRoute [entryAliceE1] "mallory" "e1" noUpdateBody
        = (EntryResult.forbidden, [entryAliceE1])
      ∧ deleteEntryRoute [entryAliceE1] "mallory" "e1"
        = (EntryResult.forbidden, [entryAliceE1]) :=
  (C6_foreign_edit_delete_rejected [entryAliceE1] "mallory" "e1" noUpdateBody).1 entryAliceE1
    (by decide) (by decide)

/-! ### C7 -/

/-- C7: storage.checkUserBanned on a banned user: when bannedUntil is a
timestamp strictly in the past the ban columns are cleared through
storage.unbanUser and false (NOT_BANNED) is returned, so a subsequent
read sees isBanned = false; when bannedUntil is null the call returns
true (BANNED) and writes nothing. -/
theorem C7_ban_expiry (users : List User) (now : Int) (userId : String) (u : User)
    (hget : getUser users userId = some u) (hban : u.isBanned = true) :
    (∀ t, u.bannedUntil = some t → t < now →
        checkUserBanned users now userId = (false, (unbanUser users userId).2)
          ∧ ∃ u', getUser (checkUserBanned users now userId).2 userId = some u'
              ∧ u'.isBanned = false ∧ u'.banReason = none ∧ u'.bannedUntil = none)
    ∧ (u.bannedUntil = none → checkUserBanned users now userId = (true, users)) := by
  constructor
  · intro t huntil hlt
    have hcall : checkUserBanned users now userId = (false, (unbanUser users userId).2) := by
      unfold checkUserBanned
      simp only [hget]
      rw [if_neg (by simp [hban])]
      simp only [huntil]
      rw [if_pos hlt]
    refine ⟨hcall, clearBan u, ?_, rfl, rfl, rfl⟩
    rw [hcall]
    show getUser (unbanUser users userId).2 userId = some (clearBan u)
    rw [getUser_unbanUser_snd, unbanUser_find, hget]
    rfl
  · intro huntil
    unfold checkUserBanned
    simp only [hget]
    rw [if_neg (by simp [hban])]
    simp only [huntil]
    rw [hban]

/-- A user whose temporary ban has already expired. -/
def expiredBanUser : User :=
  { id := "u2", isAdmin := false, role := "user", isBanned := true, bannedUntil := some 500,
    banReason := some "spam" }

/-- A permanently banned user (bannedUntil null). -/
def permaBanUser : User :=
  { id := "u3", isAdmin := false, role := "user", isBanned := true, bannedUntil := none,
    banReason := some "bad" }

/-- C7 applied: at time 1000 the ban that expired at 500 is cleared and
reported lifted, while the permanent ban stays and clears nothing. -/
theorem C7_ban_expiry_witness :
    (checkUserBanned [expiredBanUser] 1000 "u2" = (false, (unbanUser [expiredBanUser] "u2").2)
      ∧ ∃ u', getUser (checkUserBanned [expiredBanUser] 1000 "u2").2 "u2" = some u'
          ∧ u'.isBanned = false ∧ u'.banReason = none ∧ u'.bannedUntil = none)
    ∧ checkUserBanned [permaBanUser] 1000 "u3" = (true, [permaBanUser]) :=
  ⟨(C7_ban_expiry [expiredBanUser] 1000 "u2" expiredBanUser (by decide) rfl).1 500 rfl
      (by decide),
    (C7_ban_expiry [permaBanUser] 1000 "u3" permaBanUser (by decide) rfl).2 rfl⟩

/-! ### C8 -/

/-- A user banned up to exactly time 1000. -/
def banBoundaryUser : User :=
  { id := "u1", isAdmin := false, role := "user", isBanned := true, bannedUntil := some 1000,
    banReason := some "spam" }

/-- C8 counterexample: the claim says a ban whose bannedUntil equals the
current instant is treated as expired.  storage.checkUserBanned uses a
strict comparison (now > bannedUntil), so at now = bannedUntil = 1000 it
still reports BANNED and clears nothing. -/
theorem C8_boundary_not_expired :
    checkUserBanned [banBoundaryUser] 1000 "u1" = (true, [banBoundaryUser]) := by decide

/-- C8 amended: the expiry boundary is exclusive: when bannedUntil
exactly equals the current time checkUserBanned still returns BANNED and
leaves the store untouched; the ban only lifts once now is strictly
greater. -/
theorem C8_amended_exclusive_boundary (users : List User) (now : Int) (userId : String)
    (u : User) (t : Int) (hget : getUser users userId = some u) (hban : u.isBanned = true)
    (huntil : u.bannedUntil = some t) (heq : now = t) :
    checkUserBanned users now userId = (true, users) := by
  unfold checkUserBanned
  simp only [hget]
  rw [if_neg (by simp [hban])]
  simp only [huntil]
  rw [if_neg (by rw [heq]; exact lt_irrefl t), hban]

/-- A user banned up to exactly time 42. -/
def banBoundaryUser2 : User :=
  { id := "u4", isAdmin := false, role := "user", isBanned := true, bannedUntil := some 42,
    banReason := some "x" }

/-- C8 amended, applied at now = bannedUntil = 42. -/
theorem C8_amended_exclusive_boundary_witness :
    checkUserBanned [banBoundaryUser2] 42 "u4" = (true, [banBoundaryUser2]) :=
  C8_amended_exclusive_boundary [banBoundaryUser2] 42 "u4" banBoundaryUser2 42 (by decide)
    rfl rfl rfl

/-! ### C4 -/

/-- C4: when the owner turns isSpecial on through
PATCH /api/entries/:id/special, the stored token is the hex encoding of
the 32 bytes drawn from the crypto random source (256 bits of entropy),
hence a nonempty hex string of fixed length 64; afterwards
storage.getSpecialPost returns the entry exactly for that token and
denies a wrong or absent token. -/
theorem C4_special_token (entries : List WikiEntry) (requesterId id : String)
    (bytes : List Nat) (e : WikiEntry)
    (hget : getEntry entries id = some e) (howner : e.userId = requesterId)
    (_hprev : e.isSpecial = false) (hlen : bytes.length = 32)
    (hbytes : ∀ b ∈ bytes, b < 256) :
    (hexEncode bytes).length = 64
    ∧ ¬ hexEncode bytes = ""
    ∧ (∀ c ∈ (hexEncode bytes).data, c ∈ hexAlphabet)
    ∧ ∃ e', (setSpecialRoute entries requesterId id true bytes).1 = EntryResult.ok e'
        ∧ e'.isSpecial = true
        ∧ e'.specialAccessToken = some (hexEncode bytes)
        ∧ getSpecialPost (setSpecialRoute entries requesterId id true bytes).2 id
            (some (hexEncode bytes)) = some e'
        ∧ (∀ t, ¬ t = hexEncode bytes →
            getSpecialPost (setSpecialRoute entries requesterId id true bytes).2 id
              (some t) = none)
        ∧ getSpecialPost (setSpecialRoute entries requesterId id true bytes).2 id none
            = none := by
  have hlen64 : (hexEncode bytes).length = 64 := by rw [hexEncode_length, hlen]
  have hne : ¬ hexEncode bytes = "" := by
    intro h
    rw [h] at hlen64
    exact absurd hlen64 (by decide)
  have hroute1 : (setSpecialRoute entries requesterId id true bytes).1
      = EntryResult.ok (applyUpdate e (specialPatch true bytes)) := by
    unfold setSpecialRoute
    simp only [hget]
    rw [if_neg (by simp [howner])]
    rw [updateEntry_find, hget]
    simp only [Option.map_some']
  have hroute2 : (setSpecialRoute entries requesterId id true bytes).2
      = (updateEntry entries id (specialPatch true bytes)).2 := by
    unfold setSpecialRoute
    simp only [hget]
    rw [if_neg (by simp [howner])]
    rw [updateEntry_find, hget]
    simp only [Option.map_some']
  have hfind2 : getEntry (updateEntry entries id (specialPatch true bytes)).2 id
      = some (applyUpdate e (specialPatch true bytes)) := by
    rw [getEntry_updateEntry_snd, updateEntry_find, hget]
    rfl
  have hspec' : (applyUpdate e (specialPatch true bytes)).isSpecial = true := rfl
  have htok : (applyUpdate e (specialPatch true bytes)).specialAccessToken
      = some (hexEncode bytes) := rfl
  have hbe : (hexEncode bytes == "") = false := by
    rw [beq_eq_false_iff_ne]
    exact hne
  refine ⟨hlen64, hne, hexEncodeAux_mem bytes hbytes,
    applyUpdate e (specialPatch true bytes), hroute1, hspec', htok, ?_, ?_, ?_⟩
  · rw [hroute2]
    simp [getSpecialPost, hfind2, tokenMatches, htok, hbe]
  · intro t ht
    have hbe2 : ((applyUpdate e (specialPatch true bytes)).specialAccessToken == some t)
        = false := by
      rw [htok, beq_eq_false_iff_ne]
      intro hcon
      exact ht (Option.some.inj hcon).symm
    rw [hroute2]
    simp [getSpecialPost, hfind2, tokenMatches, hspec', hbe2]
  · rw [hroute2]
    simp [getSpecialPost, hfind2, tokenMatches, hspec']

/-- C4 applied: a concrete run on alice's non-special entry with 32 zero
bytes, extracting the fixed length of the generated token. -/
theorem C4_special_token_witness : (hexEncode (List.replicate 32 0)).length = 64 :=
  (C4_special_token [entryAliceE1] "alice" "e1" (List.replicate 32 0) entryAliceE1 (by decide)
    rfl rfl (by decide) (by decide)).1

/-! ### C9 -/

/-- C9: POST /api/likes checks storage.userLikesEntry first: after a
successful like, a second like of the same (entryId, userId) pair is
rejected and leaves the store unchanged; and the at-most-one-like-per-
pair invariant is preserved both by the like route and by
storage.removeLike. -/
theorem C9_like_unique (likes : List Like) (userId entryId : String) :
    (∀ newId l likes1,
        createLikeRoute likes userId entryId newId = (LikeResult.created l, likes1) →
        ∀ newId2, createLikeRoute likes1 userId entryId newId2
          = (LikeResult.alreadyLiked, likes1))
    ∧ (∀ newId, likesUnique likes → likesUnique (createLikeRoute likes userId entryId newId).2)
    ∧ (likesUnique likes → likesUnique (removeLike likes entryId userId)) := by
  refine ⟨?_, ?_, ?_⟩
  · intro newId l likes1 h newId2
    unfold createLikeRoute at h
    by_cases hl : userLikesEntry likes entryId userId = true
    · rw [if_pos hl] at h
      exact absurd h (by simp)
    · rw [if_neg hl] at h
      have hlikes1 : likes1
          = likes ++ [{ id := newId, entryId := entryId, userId := userId }] := by
        have h2 := congrArg Prod.snd h
        simpa [createLike] using h2.symm
      have hfull : userLikesEntry likes1 entryId userId = true := by
        rw [hlikes1]
        unfold userLikesEntry
        rw [List.find?_isSome]
        exact ⟨{ id := newId, entryId := entryId, userId := userId }, by simp, by simp⟩
      unfold createLikeRoute
      rw [if_pos hfull]
  · intro newId hinv
    have hsnd : (createLikeRoute likes userId entryId newId).2
        = if userLikesEntry likes entryId userId then likes
          else likes ++ [{ id := newId, entryId := entryId, userId := userId }] := by
      unfold createLikeRoute createLike
      by_cases hl : userLikesEntry likes entryId userId = true
      · rw [if_pos hl, if_pos hl]
      · rw [if_neg hl, if_neg hl]
    rw [hsnd]
    by_cases hl : userLikesEntry likes entryId userId = true
    · rw [if_pos hl]
      exact hinv
    · rw [if_neg hl]
      unfold likesUnique likeCount at hinv ⊢
      intro e u
      rw [List.countP_append]
      simp only [List.countP_cons, List.countP_nil]
      by_cases hpn : (entryId == e && userId == u) = true
      · simp only [Bool.and_eq_true, beq_iff_eq] at hpn
        obtain ⟨rfl, rfl⟩ := hpn
        have hnone : likes.find? (fun l => l.entryId == entryId && l.userId == userId)
            = none := by
          unfold userLikesEntry at hl
          cases hfind : likes.find? (fun l => l.entryId == entryId && l.userId == userId) with
          | none => rfl
          | some x =>
            rw [hfind] at hl
            exact absurd rfl hl
        have h0 : likes.countP (fun l => l.entryId == entryId && l.userId == userId) = 0 :=
          List.countP_eq_zero.mpr (fun a ha => List.find?_eq_none.mp hnone a ha)
        rw [h0]
        simp
      · rw [if_neg (by simpa using hpn)]
        simpa using hinv e u
  · intro hinv
    unfold likesUnique likeCount at hinv ⊢
    intro e u
    unfold removeLike
    exact le_trans (List.Sublist.countP_le _ (List.filter_sublist likes)) (hinv e u)

/-- The first like of alice on entry e1. -/
def firstLike : Like := { id := "l1", entryId := "e1", userId := "alice" }

/-- C9 applied: after alice's first like is stored, a second like of the
same pair is rejected and the store is unchanged. -/
theorem C9_like_unique_witness :
    createLikeRoute [firstLike] "alice" "e1" "l2" = (LikeResult.alreadyLiked, [firstLike]) :=
  (C9_like_unique [] "alice" "e1").1 "l1" firstLike [firstLike] (by decide) "l2"
